import Mathlib

/-!
Shallow embedding of the sophon liquid-staking contract
(src/src/contract.rs, src/src/state.rs, src/src/msg.rs).

Addresses (HumanAddr / CanonicalAddr) are modelled as Nat; the
canonicalize / humanize round trip of the host is the identity.
Uint128 quantities are modelled as unbounded Nat (the claims under
study do not concern 128-bit overflow).  Decimal values (exit_tax,
commissions) are modelled by their numerator over the fixed
denominator 10^18, exactly as cosmwasm 0.10 stores them; the Rust
operations amount * decimal and a.multiply_ratio(num, denom) are
floor divisions on those numerators.

Host queries that a handler performs (total delegated amount, the
contract's bank balance) are passed to the embedded handler as
explicit arguments, since the Rust code reads them fresh at the start
of the handler and only ever uses the returned totals.

Each handler returns the post-call store together with an HResult:
HResult.ok msgs for a successful HandleResponse carrying messages,
HResult.err e for a returned error, HResult.trap for a Rust panic
(unwrap on None / division by zero in multiply_ratio).  The store
component returned with an error is the store as mutated so far,
mirroring the Rust functions acting on a mutable Extern.
-/

set_option maxRecDepth 10000

namespace Sophon

/-- Fixed denominator of cosmwasm 0.10 Decimal values. -/
def DEC : Nat := 1000000000000000000

/-- Uint128 * Decimal in cosmwasm 0.10: floor (a * numerator / 10^18). -/
def mulDec (a t : Nat) : Nat := a * t / DEC

/-- Decimal::percent x, as a numerator over 10^18. -/
def percent (x : Nat) : Nat := x * 10000000000000000

/-- Supply from state.rs: issued derivative tokens, bonded native tokens,
outstanding claims. -/
structure Supply where
  issued : Nat
  bonded : Nat
  claims : Nat
  deriving DecidableEq

/-- InvestmentInfo from state.rs (immutable after init). -/
structure InvestmentInfo where
  owner : Nat
  bond_denom : String
  exit_tax : Nat
  validator : String
  min_withdrawal : Nat
  deriving DecidableEq

/-- DelegateInfo from state.rs (per-delegator record). -/
structure DelegateInfo where
  delegator : Nat
  validator : String
  amount : Nat
  last_delegate_height : Nat
  unbond_flag : Bool
  undelegate_reward : Nat
  deriving DecidableEq

/-- The contract's persistent store: the invest singleton, the supply
singleton, the balance bucket, the claims bucket, the delegations
bucket and the delegators-registry singleton (none if never saved). -/
structure ContractState where
  invest : InvestmentInfo
  supply : Supply
  balances : List (Nat × Nat)
  claims_map : List (Nat × Nat)
  delegations : List (Nat × DelegateInfo)
  delegators : Option (List Nat)
  deriving DecidableEq

/-- Error kinds returned by the handlers (section 7 of the spec). -/
inductive Err where
  | wrongDenom
  | inconsistentBonded
  | belowMinWithdrawal
  | insufficientBalance
  | underflow
  | unauthorized
  deriving DecidableEq

/-- Outbound instructions emitted in a HandleResponse. -/
inductive Msg where
  | delegate (validator : String) (denom : String) (amount : Nat)
  | undelegate (validator : String) (denom : String) (amount : Nat)
  | withdraw (validator : String) (recipient : Nat)
  | executeBondAll (contractAddr : Nat)
  deriving DecidableEq

/-- Outcome of a handler: success with messages, a returned error, or a
Rust panic (trap). -/
inductive HResult where
  | ok (msgs : List Msg)
  | err (e : Err)
  | trap
  deriving DecidableEq

/-- Bucket read with default (may_load(...).unwrap_or_default()). -/
def getKV {α : Type} (l : List (Nat × α)) (k : Nat) (d : α) : α :=
  match l with
  | [] => d
  | e :: t => if e.1 = k then e.2 else getKV t k d

/-- Bucket write: replace the entry for the key, or add one. -/
def setKV {α : Type} (l : List (Nat × α)) (k : Nat) (v : α) : List (Nat × α) :=
  match l with
  | [] => [(k, v)]
  | e :: t => if e.1 = k then (k, v) :: t else e :: setKV t k v

/-- Bucket read as an Option (may_load). -/
def lookupKV {α : Type} (l : List (Nat × α)) (k : Nat) : Option α :=
  match l with
  | [] => none
  | e :: t => if e.1 = k then some e.2 else lookupKV t k

/-- Total of all ledger entries. -/
def sumBal : List (Nat × Nat) → Nat
  | [] => 0
  | e :: t => e.2 + sumBal t

/-- info.sent_funds.iter().find(|x| x.denom == invest.bond_denom),
returning the amount of the first coin in the bonding denomination. -/
def findPayment (denom : String) : List (String × Nat) → Option Nat
  | [] => none
  | c :: rest => if c.1 = denom then some c.2 else findPayment denom rest

/-- transfer from contract.rs: debit the sender (checked), credit the
recipient.  The debit fails with InsufficientBalance before any write. -/
def transfer (st : ContractState) (sender rcpt amount : Nat) :
    ContractState × HResult :=
  let sbal := getKV st.balances sender 0
  if amount ≤ sbal then
    let b1 := setKV st.balances sender (sbal - amount)
    let b2 := setKV b1 rcpt (getKV b1 rcpt 0 + amount)
    ({ st with balances := b2 }, HResult.ok [])
  else (st, HResult.err Err.insufficientBalance)

/-- bond from contract.rs.  sentFunds is info.sent_funds; bondedQ is the
freshly queried total delegated amount (get_bonded).  Mirrors the source
order: find payment, assert stored bonded = queried bonded, mint at the
fallback 1:1 Decimal ratio when issued or bonded is zero and otherwise
payment.multiply_ratio(issued, bonded), update supply, credit sender,
emit a delegate instruction for the payment. -/
def bond (st : ContractState) (sender : Nat) (sentFunds : List (String × Nat))
    (bondedQ : Nat) : ContractState × HResult :=
  match findPayment st.invest.bond_denom sentFunds with
  | none => (st, HResult.err Err.wrongDenom)
  | some payment =>
    if st.supply.bonded = bondedQ then
      let toMint := if st.supply.issued = 0 ∨ bondedQ = 0 then
          mulDec payment DEC
        else payment * st.supply.issued / bondedQ
      let supply' : Supply :=
        { issued := st.supply.issued + toMint
          bonded := bondedQ + payment
          claims := st.supply.claims }
      let b' := setKV st.balances sender (getKV st.balances sender 0 + toMint)
      ({ st with supply := supply', balances := b' },
        HResult.ok [Msg.delegate st.invest.validator st.invest.bond_denom payment])
    else (st, HResult.err Err.inconsistentBonded)

/-- unbond from contract.rs, in source order: the min_withdrawal check,
tax = amount * exit_tax, the checked debit of the sender, the tax credit
to the owner when tax > 0, then remainder = (amount - tax)? (checked),
the bonded consistency assertion, unbond = remainder.multiply_ratio
(bonded, issued) (panics when issued = 0), the two checked supply
subtractions, the claim credit and the undelegate instruction.  Note the
balance writes happen before the later failure points. -/
def unbond (st : ContractState) (sender amount bondedQ : Nat) :
    ContractState × HResult :=
  if amount < st.invest.min_withdrawal then (st, HResult.err Err.belowMinWithdrawal)
  else
    let tax := mulDec amount st.invest.exit_tax
    let sbal := getKV st.balances sender 0
    if sbal < amount then (st, HResult.err Err.insufficientBalance)
    else
      let b1 := setKV st.balances sender (sbal - amount)
      let b2 := if 0 < tax then
          setKV b1 st.invest.owner (getKV b1 st.invest.owner 0 + tax)
        else b1
      let st1 := { st with balances := b2 }
      if tax ≤ amount then
        let remainder := amount - tax
        if st.supply.bonded = bondedQ then
          if st.supply.issued = 0 then (st1, HResult.trap)
          else
            let ub := remainder * bondedQ / st.supply.issued
            if bondedQ < ub then (st1, HResult.err Err.underflow)
            else if st.supply.issued < remainder then (st1, HResult.err Err.underflow)
            else
              let supply' : Supply :=
                { issued := st.supply.issued - remainder
                  bonded := bondedQ - ub
                  claims := st.supply.claims + ub }
              let cm := setKV st1.claims_map sender (getKV st1.claims_map sender 0 + ub)
              ({ st1 with supply := supply', claims_map := cm },
                HResult.ok [Msg.undelegate st.invest.validator st.invest.bond_denom ub])
        else (st1, HResult.err Err.inconsistentBonded)
      else (st1, HResult.err Err.underflow)

/-- query_all_delegations from contract.rs: reads the stored record of
every registered delegator, panicking (none) on a missing record. -/
def allDelegations (dels : List (Nat × DelegateInfo)) :
    List Nat → Option (List DelegateInfo)
  | [] => some []
  | a :: rest =>
    match lookupKV dels a with
    | none => none
    | some d =>
      match allDelegations dels rest with
      | none => none
      | some ds => some (d :: ds)

/-- The update loop at the end of claim: for every delegation of the
validator, set that delegator's undelegate_reward to
reward.multiply_ratio(delegation.amount, total).  The closure unwraps a
possibly-missing record and multiply_ratio divides by total, so a
missing record or total = 0 is a panic (none). -/
def updateRewards (dels : List (Nat × DelegateInfo)) :
    List DelegateInfo → Nat → Nat → Option (List (Nat × DelegateInfo))
  | [], _, _ => some dels
  | d :: rest, reward, total =>
    if total = 0 then none
    else
      match lookupKV dels d.delegator with
      | none => none
      | some info =>
        updateRewards
          (setKV dels d.delegator { info with undelegate_reward := reward * d.amount / total })
          rest reward total

/-- claim from contract.rs (the active, per-delegator variant).  In
source order: query_delegation(sender).unwrap() (panics when the sender
has no stored record), query_all_delegations (panics when the registry
singleton was never saved or a registered delegator has no record),
filter the delegations of the sender's validator and total them, the
caller-identity check (Unauthorized for any sender other than the
contract itself), (balance - total).unwrap() (panics on underflow), and
the reward-splitting update loop.  Succeeds with no messages.  The
claims bucket is never touched. -/
def claim (st : ContractState) (sender contractAddr contractBalance : Nat) :
    ContractState × HResult :=
  match lookupKV st.delegations sender with
  | none => (st, HResult.trap)
  | some senderDel =>
    match st.delegators with
    | none => (st, HResult.trap)
    | some registry =>
      match allDelegations st.delegations registry with
      | none => (st, HResult.trap)
      | some allDels =>
        let delsOfVal := allDels.filter (fun d => d.validator == senderDel.validator)
        let totalAmount := (delsOfVal.map (fun d => d.amount)).sum
        if sender ≠ contractAddr then (st, HResult.err Err.unauthorized)
        else if contractBalance < totalAmount then (st, HResult.trap)
        else
          match updateRewards st.delegations delsOfVal
              (contractBalance - totalAmount) totalAmount with
          | none => (st, HResult.trap)
          | some dels' => ({ st with delegations := dels' }, HResult.ok [])

/-- reinvest from contract.rs: no state change; emits the withdraw
instruction and the self-addressed _BondAllTokens callback, in order. -/
def reinvest (st : ContractState) (contractAddr : Nat) :
    ContractState × HResult :=
  (st, HResult.ok [Msg.withdraw st.invest.validator contractAddr,
                   Msg.executeBondAll contractAddr])

/-- _bond_all_tokens from contract.rs.  contractBalance is the queried
bank balance of the contract in the bonding denomination.  The caller
check comes first; then the supply update subtracts outstanding claims
from the balance and probes the min_withdrawal threshold with checked
subtractions; an Underflow from either one is caught and turned into a
successful no-op (HandleResponse::default()); otherwise the remainder is
added to supply.bonded and delegated. -/
def bond_all_tokens (st : ContractState) (caller contractAddr contractBalance : Nat) :
    ContractState × HResult :=
  if caller = contractAddr then
    if contractBalance < st.supply.claims then (st, HResult.ok [])
    else
      let rem := contractBalance - st.supply.claims
      if rem < st.invest.min_withdrawal then (st, HResult.ok [])
      else
        ({ st with supply := { st.supply with bonded := st.supply.bonded + rem } },
          HResult.ok [Msg.delegate st.invest.validator st.invest.bond_denom rem])
  else (st, HResult.err Err.unauthorized)

/-- One inbound operation, as dispatched by handle in contract.rs. -/
inductive Op where
  | transferOp (sender rcpt amount : Nat)
  | bondOp (sender : Nat) (sentFunds : List (String × Nat)) (bondedQ : Nat)
  | unbondOp (sender amount bondedQ : Nat)
  | claimOp (sender contractAddr contractBalance : Nat)
  | reinvestOp (contractAddr : Nat)
  | bondAllOp (caller contractAddr contractBalance : Nat)
  deriving DecidableEq

/-- Dispatch of handle from contract.rs. -/
def step (st : ContractState) : Op → ContractState × HResult
  | Op.transferOp s r a => transfer st s r a
  | Op.bondOp s f bq => bond st s f bq
  | Op.unbondOp s a bq => unbond st s a bq
  | Op.claimOp s ca b => claim st s ca b
  | Op.reinvestOp ca => reinvest st ca
  | Op.bondAllOp c ca b => bond_all_tokens st c ca b

/-- A validator entry of the host's validator set (cosmwasm Validator);
commission and max_change_rate are Decimal numerators over 10^18. -/
structure Validator where
  address : String
  commission : Nat
  max_commission : Nat
  max_change_rate : Nat
  deriving DecidableEq

/-- Result of select_validator: StdResult<Validator> in the source, but
the source reaches the error branch never and panics (trap) on an empty
set via unwrap. -/
inductive VRes where
  | ok (v : Validator)
  | err (e : Err)
  | trap
  deriving DecidableEq

/-- Whether a VRes is a returned error value. -/
def VRes.isErr : VRes → Bool
  | VRes.err _ => true
  | _ => false

/-- Rust Iterator::min_by_key fold: keeps the first element attaining
the minimal key. -/
def minFrom {α : Type} (key : α → Nat) (acc : α) : List α → α
  | [] => acc
  | y :: ys => minFrom key (if key y < key acc then y else acc) ys

/-- Rust Iterator::min_by_key: none on an empty iterator. -/
def minByKeyList {α : Type} (key : α → Nat) : List α → Option α
  | [] => none
  | x :: xs => some (minFrom key x xs)

/-- select_validator from contract.rs: take the minimal commission
(unwrap: trap on an empty set), filter the validators at that
commission, and take the first one with the minimal max_change_rate. -/
def select_validator (validators : List Validator) : VRes :=
  match minByKeyList (fun v => v.commission) validators with
  | none => VRes.trap
  | some m =>
    match minByKeyList (fun v => v.max_change_rate)
        (validators.filter (fun v => v.commission == m.commission)) with
    | none => VRes.trap
    | some v => VRes.ok v

/-- nominal_value from query_investment: the Decimal numerator of
bonded / issued, defaulting to 1.0 when issued is zero. -/
def nominalValue (s : Supply) : Nat :=
  if s.issued = 0 then DEC else s.bonded * DEC / s.issued

/-! ### Store lemmas -/

theorem getKV_le_sumBal (l : List (Nat × Nat)) (k : Nat) :
    getKV l k 0 ≤ sumBal l := by
  induction l with
  | nil => simp [getKV, sumBal]
  | cons e t ih =>
    simp only [getKV, sumBal]
    split
    · omega
    · omega

theorem sumBal_setKV (l : List (Nat × Nat)) (k v : Nat) :
    sumBal (setKV l k v) + getKV l k 0 = sumBal l + v := by
  induction l with
  | nil => simp [setKV, getKV, sumBal]
  | cons e t ih =>
    simp only [setKV, getKV]
    split
    · simp only [sumBal]; omega
    · simp only [sumBal]; omega

theorem getKV_setKV_self {α : Type} (l : List (Nat × α)) (k : Nat) (v d : α) :
    getKV (setKV l k v) k d = v := by
  induction l with
  | nil => simp [setKV, getKV]
  | cons e t ih =>
    simp only [setKV]
    split
    · simp [getKV]
    · simp only [getKV]
      split
      · simp_all
      · exact ih

theorem getKV_setKV_ne {α : Type} (l : List (Nat × α)) (k j : Nat) (v d : α)
    (h : j ≠ k) : getKV (setKV l k v) j d = getKV l j d := by
  induction l with
  | nil =>
    simp only [setKV, getKV]
    rw [if_neg (fun he => h he.symm)]
  | cons e t ih =>
    simp only [setKV]
    split
    · next hek =>
      simp only [getKV]
      rw [if_neg (fun he => h he.symm), if_neg (by omega)]
    · simp only [getKV]
      split
      · rfl
      · exact ih

theorem mulDec_one (p : Nat) : mulDec p DEC = p := by
  unfold mulDec
  exact Nat.mul_div_cancel p (by decide)

theorem mulDec_le_self (a t : Nat) (h : t ≤ DEC) : mulDec a t ≤ a := by
  unfold mulDec
  calc a * t / DEC ≤ a * DEC / DEC := Nat.div_le_div_right (Nat.mul_le_mul_left a h)
  _ = a := Nat.mul_div_cancel a (by decide)

/-! ### Concrete states used by witnesses and counterexamples -/

def denomStake : String := "ustake"

def valV : String := "my-validator"

/-- Fresh post-init store: 2% exit tax, min_withdrawal 50, zero supply. -/
def stInit : ContractState :=
  { invest := { owner := 9, bond_denom := denomStake, exit_tax := percent 2,
                validator := valV, min_withdrawal := 50 }
    supply := { issued := 0, bonded := 0, claims := 0 }
    balances := []
    claims_map := []
    delegations := []
    delegators := none }

/-- Store with 10% exit tax, 1000 issued to address 1, 1000 bonded. -/
def stTen : ContractState :=
  { invest := { owner := 9, bond_denom := denomStake, exit_tax := percent 10,
                validator := valV, min_withdrawal := 50 }
    supply := { issued := 1000, bonded := 1000, claims := 0 }
    balances := [(1, 1000)]
    claims_map := []
    delegations := []
    delegators := none }

/-! ### C1: bond mints at the stated ratio and credits the sender -/

/-- C1.  For every successful bond (payment found in the bonding
denomination, stored bonded equal to the queried bonded total): the
minted amount is the payment itself when the pre-state issued supply or
the queried bonded total is zero, and floor (payment * issued / bonded)
otherwise; the minted amount is added to Supply.issued and to the
sender's ledger balance (so an immediate Balance query returns the
pre-bond balance plus the minted amount), Supply.bonded grows by the
payment, and a delegate instruction for the payment is emitted. -/
theorem bond_mints_and_credits (st : ContractState) (sender payment bondedQ : Nat)
    (sentFunds : List (String × Nat))
    (hpay : findPayment st.invest.bond_denom sentFunds = some payment)
    (hmatch : st.supply.bonded = bondedQ) :
    (bond st sender sentFunds bondedQ).2
      = HResult.ok [Msg.delegate st.invest.validator st.invest.bond_denom payment]
    ∧ (bond st sender sentFunds bondedQ).1.supply.issued
      = st.supply.issued + (if st.supply.issued = 0 ∨ bondedQ = 0 then payment
          else payment * st.supply.issued / bondedQ)
    ∧ (bond st sender sentFunds bondedQ).1.supply.bonded = st.supply.bonded + payment
    ∧ getKV (bond st sender sentFunds bondedQ).1.balances sender 0
      = getKV st.balances sender 0 + (if st.supply.issued = 0 ∨ bondedQ = 0 then payment
          else payment * st.supply.issued / bondedQ) := by
  by_cases h0 : st.supply.issued = 0 ∨ bondedQ = 0
  · simp only [bond, hpay, if_pos hmatch, if_pos h0, mulDec_one]
    exact ⟨by trivial, by trivial, by simp [hmatch], by simp [getKV_setKV_self]⟩
  · simp only [bond, hpay, if_pos hmatch, if_neg h0]
    exact ⟨by trivial, by trivial, by simp [hmatch], by simp [getKV_setKV_self]⟩

/-- Witness for C1: bonding 1000 ustake on the fresh store mints 1000
derivative tokens at the 1:1 fallback ratio. -/
theorem bond_mints_and_credits_witness :
    (bond stInit 7 [(denomStake, 1000)] 0).1.supply.issued
      = stInit.supply.issued + (if stInit.supply.issued = 0 ∨ (0 : Nat) = 0 then 1000
          else 1000 * stInit.supply.issued / 0)
    ∧ getKV (bond stInit 7 [(denomStake, 1000)] 0).1.balances 7 0
      = getKV stInit.balances 7 0 + (if stInit.supply.issued = 0 ∨ (0 : Nat) = 0 then 1000
          else 1000 * stInit.supply.issued / 0) :=
  ⟨(bond_mints_and_credits stInit 7 1000 0 [(denomStake, 1000)] (by decide) (by decide)).2.1,
   (bond_mints_and_credits stInit 7 1000 0 [(denomStake, 1000)] (by decide) (by decide)).2.2.2⟩

/-! ### C5: the privileged callback rejects every external caller -/

/-- C5.  _BondAllTokens invoked by any caller other than the contract's
own address fails with Unauthorized, changes no state and emits no
instructions. -/
theorem bond_all_tokens_unauthorized (st : ContractState)
    (caller contractAddr contractBalance : Nat) (h : caller ≠ contractAddr) :
    bond_all_tokens st caller contractAddr contractBalance
      = (st, HResult.err Err.unauthorized) := by
  simp [bond_all_tokens, h]

/-- Witness for C5 at a concrete external caller. -/
theorem bond_all_tokens_unauthorized_witness :
    bond_all_tokens stTen 3 5 100 = (stTen, HResult.err Err.unauthorized) :=
  bond_all_tokens_unauthorized stTen 3 5 100 (by decide)

/-! ### C6: the privileged callback's no-op and action branches -/

/-- C6.  When _BondAllTokens is invoked by the contract itself: if the
queried balance minus outstanding claims would be negative, or the
remainder is below min_withdrawal, the call succeeds with no messages
and no state change; otherwise the remainder is added to Supply.bonded
and a delegate instruction for exactly the remainder is emitted. -/
theorem bond_all_tokens_self (st : ContractState) (contractAddr contractBalance : Nat) :
    ((contractBalance < st.supply.claims
        ∨ contractBalance - st.supply.claims < st.invest.min_withdrawal) →
      bond_all_tokens st contractAddr contractAddr contractBalance
        = (st, HResult.ok []))
    ∧ (st.supply.claims ≤ contractBalance →
       st.invest.min_withdrawal ≤ contractBalance - st.supply.claims →
      bond_all_tokens st contractAddr contractAddr contractBalance
        = ({ st with supply := { st.supply with
              bonded := st.supply.bonded + (contractBalance - st.supply.claims) } },
           HResult.ok [Msg.delegate st.invest.validator st.invest.bond_denom
             (contractBalance - st.supply.claims)])) := by
  constructor
  · intro h
    rcases h with h | h
    · simp [bond_all_tokens, if_pos h]
    · by_cases hb : contractBalance < st.supply.claims
      · simp [bond_all_tokens, if_pos hb]
      · simp [bond_all_tokens, if_neg hb, if_pos h]
  · intro h1 h2
    simp [bond_all_tokens, if_neg (Nat.not_lt.mpr h1), if_neg (Nat.not_lt.mpr h2)]

/-- Witness for C6: a below-threshold no-op and an above-threshold
re-bonding on the same store. -/
theorem bond_all_tokens_self_witness :
    bond_all_tokens stTen 5 5 20 = (stTen, HResult.ok [])
    ∧ bond_all_tokens stTen 5 5 500
      = ({ stTen with supply := { stTen.supply with
            bonded := stTen.supply.bonded + (500 - stTen.supply.claims) } },
         HResult.ok [Msg.delegate stTen.invest.validator stTen.invest.bond_denom
           (500 - stTen.supply.claims)]) :=
  ⟨(bond_all_tokens_self stTen 5 20).1 (Or.inr (by decide)),
   (bond_all_tokens_self stTen 5 500).2 (by decide) (by decide)⟩

/-! ### C10: Claim panics on a missing delegation record -/

/-- C10.  For every external sender with no stored DelegateInfo record,
the Claim handler panics (the unwrap of a missing delegation entry
inside query_delegation) before the caller-identity check runs, instead
of returning any error value. -/
theorem claim_missing_record_traps (st : ContractState) (sender contractAddr bal : Nat)
    (hext : sender ≠ contractAddr)
    (hnone : lookupKV st.delegations sender = none) :
    claim st sender contractAddr bal = (st, HResult.trap) := by
  simp [claim, hnone]

/-- Witness for C10 on the fresh store, whose delegations bucket is
empty. -/
theorem claim_missing_record_traps_witness :
    claim stInit 1 0 0 = (stInit, HResult.trap) :=
  claim_missing_record_traps stInit 1 0 0 (by decide) (by decide)

/-! ### C3: the active Claim handler never settles claims -/

/-- A stored delegation record for address 1. -/
def delOne : DelegateInfo :=
  { delegator := 1, validator := valV, amount := 100,
    last_delegate_height := 0, unbond_flag := false, undelegate_reward := 0 }

/-- Store in which address 1 has a delegation record and an 810-token
pending claim entry. -/
def stC3 : ContractState :=
  { invest := { owner := 9, bond_denom := denomStake, exit_tax := percent 10,
                validator := valV, min_withdrawal := 50 }
    supply := { issued := 460, bonded := 690, claims := 810 }
    balances := [(1, 400), (9, 60)]
    claims_map := [(1, 810)]
    delegations := [(1, delOne)]
    delegators := some [1] }

/-- C3 (code bug evidence).  Address 1 holds an 810-token claim entry
and a delegation record; invoking Claim as that external sender returns
Unauthorized, leaves the whole store (in particular the 810-token claim
entry) untouched and pays nothing out, instead of settling the claim.
The settlement described by the spec exists only in a commented-out
revision of the handler. -/
theorem claim_does_not_settle :
    claim stC3 1 0 1000 = (stC3, HResult.err Err.unauthorized)
    ∧ getKV stC3.claims_map 1 0 = 810 := by
  constructor
  · rfl
  · rfl

/-! ### C2: unbond accounting -/

/-- C2 (amended: the sender is not the owner).  For every successful
unbond: the sender's balance decreases by the full amount, the owner's
balance increases by exactly floor (amount * exit_tax), the claim
credited to the sender is floor ((amount - tax) * bonded / issued) over
the pre-operation bonded and issued values, Supply.bonded decreases by
that claim, Supply.issued decreases by (amount - tax), Supply.claims
increases by that claim, and an undelegate instruction for exactly the
claim amount is emitted. -/
theorem unbond_accounting (st : ContractState) (sender amount bondedQ : Nat)
    (hmin : st.invest.min_withdrawal ≤ amount)
    (hbal : amount ≤ getKV st.balances sender 0)
    (htax : st.invest.exit_tax ≤ DEC)
    (hmatch : st.supply.bonded = bondedQ)
    (hiss : st.supply.issued ≠ 0)
    (hub : (amount - mulDec amount st.invest.exit_tax) * bondedQ / st.supply.issued
             ≤ bondedQ)
    (hrem : amount - mulDec amount st.invest.exit_tax ≤ st.supply.issued)
    (hown : sender ≠ st.invest.owner) :
    (unbond st sender amount bondedQ).2
      = HResult.ok [Msg.undelegate st.invest.validator st.invest.bond_denom
          ((amount - mulDec amount st.invest.exit_tax) * bondedQ / st.supply.issued)]
    ∧ getKV (unbond st sender amount bondedQ).1.balances sender 0
        = getKV st.balances sender 0 - amount
    ∧ getKV (unbond st sender amount bondedQ).1.balances st.invest.owner 0
        = getKV st.balances st.invest.owner 0 + mulDec amount st.invest.exit_tax
    ∧ getKV (unbond st sender amount bondedQ).1.claims_map sender 0
        = getKV st.claims_map sender 0
            + (amount - mulDec amount st.invest.exit_tax) * bondedQ / st.supply.issued
    ∧ (unbond st sender amount bondedQ).1.supply.bonded
        = st.supply.bonded
            - (amount - mulDec amount st.invest.exit_tax) * bondedQ / st.supply.issued
    ∧ (unbond st sender amount bondedQ).1.supply.issued
        = st.supply.issued - (amount - mulDec amount st.invest.exit_tax)
    ∧ (unbond st sender amount bondedQ).1.supply.claims
        = st.supply.claims
            + (amount - mulDec amount st.invest.exit_tax) * bondedQ / st.supply.issued := by
  have htaxle : mulDec amount st.invest.exit_tax ≤ amount :=
    mulDec_le_self amount st.invest.exit_tax htax
  by_cases hpos : 0 < mulDec amount st.invest.exit_tax
  · simp only [unbond, if_neg (Nat.not_lt.mpr hmin), if_neg (Nat.not_lt.mpr hbal),
      if_pos hpos, if_pos htaxle, if_pos hmatch, if_neg hiss,
      if_neg (Nat.not_lt.mpr hub), if_neg (Nat.not_lt.mpr hrem)]
    refine ⟨by trivial, ?_, ?_, ?_, by simp [hmatch], by trivial, by trivial⟩
    · rw [getKV_setKV_ne _ _ _ _ _ hown, getKV_setKV_self]
    · rw [getKV_setKV_self, getKV_setKV_ne _ _ _ _ _ (fun he => hown he.symm)]
    · rw [getKV_setKV_self]
  · simp only [unbond, if_neg (Nat.not_lt.mpr hmin), if_neg (Nat.not_lt.mpr hbal),
      if_neg hpos, if_pos htaxle, if_pos hmatch, if_neg hiss,
      if_neg (Nat.not_lt.mpr hub), if_neg (Nat.not_lt.mpr hrem)]
    refine ⟨by trivial, ?_, ?_, ?_, by simp [hmatch], by trivial, by trivial⟩
    · rw [getKV_setKV_self]
    · rw [getKV_setKV_ne _ _ _ _ _ (fun he => hown he.symm)]
      omega
    · rw [getKV_setKV_self]

/-- Witness for C2: address 1 unbonds 600 of its 1000 tokens at 10%
tax; the owner (address 9) gains the 60-token tax cut. -/
theorem unbond_accounting_witness :
    getKV (unbond stTen 1 600 1000).1.balances stTen.invest.owner 0
      = getKV stTen.balances stTen.invest.owner 0 + mulDec 600 stTen.invest.exit_tax
    ∧ getKV (unbond stTen 1 600 1000).1.balances 1 0
      = getKV stTen.balances 1 0 - 600 :=
  ⟨(unbond_accounting stTen 1 600 1000 (by decide) (by decide) (by decide) (by decide)
      (by decide) (by decide) (by decide) (by decide)).2.2.1,
   (unbond_accounting stTen 1 600 1000 (by decide) (by decide) (by decide) (by decide)
      (by decide) (by decide) (by decide) (by decide)).2.1⟩

/-- Store identical to stTen except that the 1000 derivative tokens are
held by the owner (address 9) itself. -/
def stOwn : ContractState :=
  { invest := { owner := 9, bond_denom := denomStake, exit_tax := percent 10,
                validator := valV, min_withdrawal := 50 }
    supply := { issued := 1000, bonded := 1000, claims := 0 }
    balances := [(9, 1000)]
    claims_map := []
    delegations := []
    delegators := none }

/-- Counterexample to C2 as stated: when the sender is the owner, a
successful unbond of 600 at 10% tax leaves the sender's balance at
1000 - 600 + 60 = 460, not 1000 - 600 = 400 — the full-amount debit and
the tax credit land on the same ledger entry. -/
theorem unbond_owner_counterexample :
    (unbond stOwn 9 600 1000).2
      = HResult.ok [Msg.undelegate valV denomStake 540]
    ∧ ¬ (getKV (unbond stOwn 9 600 1000).1.balances 9 0
          = getKV stOwn.balances 9 0 - 600) := by
  constructor
  · rfl
  · decide

/-! ### C8: the exchange rate across bonds -/

/-- C8 (amended).  A successful bond from a state with issued and
bonded both non-zero never increases the ratio issued / bonded
(equivalently never lowers the nominal rate bonded / issued), stated by
cross-multiplication; the ratio is preserved exactly whenever bonded
divides payment * issued — rounding the minted amount down loses the
fractional part otherwise. -/
theorem bond_rate_monotone (st : ContractState) (sender payment bondedQ : Nat)
    (sentFunds : List (String × Nat))
    (hpay : findPayment st.invest.bond_denom sentFunds = some payment)
    (hmatch : st.supply.bonded = bondedQ)
    (hiss : st.supply.issued ≠ 0)
    (hbond : st.supply.bonded ≠ 0) :
    (bond st sender sentFunds bondedQ).1.supply.issued * st.supply.bonded
      ≤ st.supply.issued * (bond st sender sentFunds bondedQ).1.supply.bonded
    ∧ (bondedQ ∣ payment * st.supply.issued →
        (bond st sender sentFunds bondedQ).1.supply.issued * st.supply.bonded
          = st.supply.issued * (bond st sender sentFunds bondedQ).1.supply.bonded) := by
  have hbq : bondedQ ≠ 0 := hmatch ▸ hbond
  have h0 : ¬ (st.supply.issued = 0 ∨ bondedQ = 0) := by
    intro h; rcases h with h | h
    · exact hiss h
    · exact hbq h
  simp only [bond, hpay, if_pos hmatch, if_neg h0]
  have hc : st.supply.issued * payment = payment * st.supply.issued := Nat.mul_comm _ _
  constructor
  · have hd : payment * st.supply.issued / bondedQ * bondedQ ≤ payment * st.supply.issued :=
      Nat.div_mul_le_self (payment * st.supply.issued) bondedQ
    rw [hmatch, Nat.add_mul, Nat.mul_add, hc]
    exact Nat.add_le_add_left hd _
  · intro hdvd
    have hd : payment * st.supply.issued / bondedQ * bondedQ = payment * st.supply.issued :=
      Nat.div_mul_cancel hdvd
    rw [hmatch, Nat.add_mul, Nat.mul_add, hc, hd]

/-- Witness for C8: a bond of 2 on a 2-issued / 2-bonded state, where
the divisibility holds and the rate is exactly preserved. -/
def stTwo : ContractState :=
  { invest := { owner := 9, bond_denom := denomStake, exit_tax := percent 2,
                validator := valV, min_withdrawal := 50 }
    supply := { issued := 2, bonded := 2, claims := 0 }
    balances := [(1, 2)]
    claims_map := []
    delegations := []
    delegators := none }

theorem bond_rate_monotone_witness :
    (bond stTwo 1 [(denomStake, 2)] 2).1.supply.issued * stTwo.supply.bonded
      = stTwo.supply.issued * (bond stTwo 1 [(denomStake, 2)] 2).1.supply.bonded :=
  (bond_rate_monotone stTwo 1 2 2 [(denomStake, 2)] (by decide) (by decide)
      (by decide) (by decide)).2 (by decide)

/-- Store with 3 issued and 2 bonded: the ratio 3 / 2 cannot survive a
1-token bond, whose minted amount floor (1 * 3 / 2) = 1 drops half a
token. -/
def stSkew : ContractState :=
  { invest := { owner := 9, bond_denom := denomStake, exit_tax := percent 2,
                validator := valV, min_withdrawal := 50 }
    supply := { issued := 3, bonded := 2, claims := 0 }
    balances := [(1, 3)]
    claims_map := []
    delegations := []
    delegators := none }

/-- Counterexample to C8 as stated: from issued = 3, bonded = 2 (both
non-zero), a successful bond of 1 yields issued = 4, bonded = 3, and
4 / 3 is not 3 / 2 — cross-multiplied, 4 * 2 is not 3 * 3 — and the
nominal Decimal rate of query_investment changes as well. -/
theorem bond_rate_counterexample :
    (bond stSkew 1 [(denomStake, 1)] 2).2
      = HResult.ok [Msg.delegate valV denomStake 1]
    ∧ ¬ ((bond stSkew 1 [(denomStake, 1)] 2).1.supply.issued * stSkew.supply.bonded
          = stSkew.supply.issued * (bond stSkew 1 [(denomStake, 1)] 2).1.supply.bonded)
    ∧ ¬ (nominalValue (bond stSkew 1 [(denomStake, 1)] 2).1.supply
          = nominalValue stSkew.supply) := by
  refine ⟨rfl, by decide, by decide⟩

/-! ### C9: validator selection -/

theorem minFrom_eq_or_mem {α : Type} (key : α → Nat) (acc : α) (l : List α) :
    minFrom key acc l = acc ∨ minFrom key acc l ∈ l := by
  induction l generalizing acc with
  | nil => exact Or.inl rfl
  | cons y ys ih =>
    simp only [minFrom]
    rcases ih (if key y < key acc then y else acc) with h | h
    · rw [h]
      split
      · exact Or.inr (List.mem_cons_self _ _)
      · exact Or.inl rfl
    · exact Or.inr (List.mem_cons_of_mem _ h)

theorem minFrom_le_acc {α : Type} (key : α → Nat) (acc : α) (l : List α) :
    key (minFrom key acc l) ≤ key acc := by
  induction l generalizing acc with
  | nil => exact Nat.le_refl _
  | cons y ys ih =>
    simp only [minFrom]
    refine Nat.le_trans (ih _) ?_
    split
    · omega
    · exact Nat.le_refl _

theorem minFrom_le_mem {α : Type} (key : α → Nat) (acc : α) (l : List α)
    (w : α) (hw : w ∈ l) : key (minFrom key acc l) ≤ key w := by
  induction l generalizing acc with
  | nil => cases hw
  | cons y ys ih =>
    simp only [minFrom]
    rcases List.mem_cons.mp hw with h | h
    · subst h
      refine Nat.le_trans (minFrom_le_acc key _ ys) ?_
      split
      · exact Nat.le_refl _
      · omega
    · exact ih _ h

/-- The three validators of the selection scenario: commissions
1%, 2%, 1% with max-change-rates 5%, 1%, 3%. -/
def valJohn : Validator :=
  { address := "john", commission := percent 1,
    max_commission := percent 10, max_change_rate := percent 5 }

def valMary : Validator :=
  { address := "mary", commission := percent 2,
    max_commission := percent 10, max_change_rate := percent 1 }

def valMine : Validator :=
  { address := "my-validator", commission := percent 1,
    max_commission := percent 10, max_change_rate := percent 3 }

/-- C9 (amended: on the empty set the selector panics rather than
returning an error).  select_validator is a pure function of the
validator set; on every non-empty set it returns a validator of the set
whose commission is minimal and, among the validators tied at that
commission, whose max-change-rate is smallest; on the scenario set with
commissions 1%, 2%, 1% and max-change-rates 5%, 1%, 3% it picks the
1%-commission validator with the 3% rate. -/
theorem select_validator_policy :
    (∀ vals : List Validator, vals ≠ [] →
      ∃ v, select_validator vals = VRes.ok v ∧ v ∈ vals
        ∧ (∀ w ∈ vals, v.commission ≤ w.commission)
        ∧ (∀ w ∈ vals, w.commission = v.commission →
             v.max_change_rate ≤ w.max_change_rate))
    ∧ select_validator [valJohn, valMary, valMine] = VRes.ok valMine := by
  constructor
  · intro vals hne
    match vals, hne with
    | x :: xs, _ =>
      have hmem : minFrom (fun v => v.commission) x xs ∈ x :: xs := by
        rcases minFrom_eq_or_mem (fun v => v.commission) x xs with h | h
        · rw [h]; exact List.mem_cons_self _ _
        · exact List.mem_cons_of_mem _ h
      have hmin : ∀ w ∈ x :: xs,
          (minFrom (fun v => v.commission) x xs).commission ≤ w.commission := by
        intro w hw
        rcases List.mem_cons.mp hw with h | h
        · subst h; exact minFrom_le_acc _ _ _
        · exact minFrom_le_mem _ _ _ _ h
      set m := minFrom (fun v => v.commission) x xs with hm
      have hfmem : m ∈ (x :: xs).filter (fun v => v.commission == m.commission) := by
        refine List.mem_filter.mpr ⟨hmem, ?_⟩
        simp
      match hfil : (x :: xs).filter (fun v => v.commission == m.commission), hfmem with
      | [], hmemnil => exact absurd (hfil ▸ hmemnil) (by simp)
      | y :: ys, _ =>
        refine ⟨minFrom (fun v => v.max_change_rate) y ys, ?_, ?_, ?_, ?_⟩
        · simp only [select_validator, minByKeyList]
          rw [hfil]
        · have : minFrom (fun v => v.max_change_rate) y ys ∈ y :: ys := by
            rcases minFrom_eq_or_mem (fun v => v.max_change_rate) y ys with h | h
            · rw [h]; exact List.mem_cons_self _ _
            · exact List.mem_cons_of_mem _ h
          have := hfil ▸ this
          exact (List.mem_filter.mp this).1
        · have hvin : minFrom (fun v => v.max_change_rate) y ys ∈ y :: ys := by
            rcases minFrom_eq_or_mem (fun v => v.max_change_rate) y ys with h | h
            · rw [h]; exact List.mem_cons_self _ _
            · exact List.mem_cons_of_mem _ h
          have hvfil := hfil ▸ hvin
          have hvc : (minFrom (fun v => v.max_change_rate) y ys).commission
              = m.commission := by
            have := (List.mem_filter.mp hvfil).2
            simpa using this
          intro w hw
          rw [hvc]
          exact hmin w hw
        · intro w hw hwc
          have hvin : minFrom (fun v => v.max_change_rate) y ys ∈ y :: ys := by
            rcases minFrom_eq_or_mem (fun v => v.max_change_rate) y ys with h | h
            · rw [h]; exact List.mem_cons_self _ _
            · exact List.mem_cons_of_mem _ h
          have hvfil := hfil ▸ hvin
          have hvc : (minFrom (fun v => v.max_change_rate) y ys).commission
              = m.commission := by
            have := (List.mem_filter.mp hvfil).2
            simpa using this
          have hwfil : w ∈ (x :: xs).filter (fun v => v.commission == m.commission) := by
            refine List.mem_filter.mpr ⟨hw, ?_⟩
            simp [hwc, hvc]
          rw [hfil] at hwfil
          rcases List.mem_cons.mp hwfil with h | h
          · subst h; exact minFrom_le_acc _ _ _
          · exact minFrom_le_mem _ _ _ _ h
  · decide

/-- Witness for C9 on a singleton validator set. -/
theorem select_validator_policy_witness :
    ∃ v, select_validator [valJohn] = VRes.ok v ∧ v ∈ [valJohn]
      ∧ (∀ w ∈ [valJohn], v.commission ≤ w.commission)
      ∧ (∀ w ∈ [valJohn], w.commission = v.commission →
           v.max_change_rate ≤ w.max_change_rate) :=
  select_validator_policy.1 [valJohn] (by decide)

/-- Counterexample to C9 as stated: on the empty validator set the
selector panics (unwrap of min_by_key's None), it does not return an
error value. -/
theorem select_validator_empty_traps :
    select_validator [] = VRes.trap ∧ VRes.isErr (select_validator []) = false := by
  exact ⟨rfl, rfl⟩

/-! ### Per-handler structural lemmas -/

/-- transfer either leaves the store untouched or succeeds. -/
theorem transfer_atomic (st : ContractState) (s r a : Nat) :
    (transfer st s r a).1 = st ∨ ∃ m, (transfer st s r a).2 = HResult.ok m := by
  unfold transfer
  dsimp only
  split
  all_goals first
    | exact Or.inl rfl
    | exact Or.inr ⟨_, rfl⟩

/-- bond either leaves the store untouched or succeeds. -/
theorem bond_atomic (st : ContractState) (s : Nat) (f : List (String × Nat)) (bq : Nat) :
    (bond st s f bq).1 = st ∨ ∃ m, (bond st s f bq).2 = HResult.ok m := by
  unfold bond
  dsimp only
  repeat' split
  all_goals first
    | exact Or.inl rfl
    | exact Or.inr ⟨_, rfl⟩

/-- claim either leaves the store untouched or succeeds. -/
theorem claim_atomic (st : ContractState) (s ca b : Nat) :
    (claim st s ca b).1 = st ∨ ∃ m, (claim st s ca b).2 = HResult.ok m := by
  unfold claim
  dsimp only
  repeat' split
  all_goals first
    | exact Or.inl rfl
    | exact Or.inr ⟨_, rfl⟩

/-- _bond_all_tokens either leaves the store untouched or succeeds. -/
theorem bond_all_atomic (st : ContractState) (c ca b : Nat) :
    (bond_all_tokens st c ca b).1 = st ∨ ∃ m, (bond_all_tokens st c ca b).2 = HResult.ok m := by
  unfold bond_all_tokens
  dsimp only
  repeat' split
  all_goals first
    | exact Or.inl rfl
    | exact Or.inr ⟨_, rfl⟩

/-- claim never touches the balance ledger or the supply singleton. -/
theorem claim_components (st : ContractState) (s ca b : Nat) :
    (claim st s ca b).1.balances = st.balances
    ∧ (claim st s ca b).1.supply = st.supply := by
  unfold claim
  dsimp only
  repeat' split
  all_goals exact ⟨rfl, rfl⟩

/-- _bond_all_tokens never touches the balance ledger or the issued
supply. -/
theorem bond_all_components (st : ContractState) (c ca b : Nat) :
    (bond_all_tokens st c ca b).1.balances = st.balances
    ∧ (bond_all_tokens st c ca b).1.supply.issued = st.supply.issued := by
  unfold bond_all_tokens
  dsimp only
  repeat' split
  all_goals exact ⟨rfl, rfl⟩

/-! ### C4: atomicity of error paths -/

/-- C4 (amended).  Every handler other than unbond leaves the store
exactly as it was whenever it returns an error (their validation
failures all precede the first write), and unbond(x) with
x < min_withdrawal always fails with BelowMinimumWithdrawal and changes
nothing; unbond's later error paths, however, run after the balance
writes (see the counterexample). -/
theorem error_atomicity (st : ContractState) (op : Op) (s a bq : Nat) :
    ((∀ s' a' q', op ≠ Op.unbondOp s' a' q') →
      ∀ e, (step st op).2 = HResult.err e → (step st op).1 = st)
    ∧ (a < st.invest.min_withdrawal →
        step st (Op.unbondOp s a bq) = (st, HResult.err Err.belowMinWithdrawal)) := by
  constructor
  · intro hne e he
    cases op with
    | transferOp s' r' a' =>
      rcases transfer_atomic st s' r' a' with h | ⟨m, hm⟩
      · exact h
      · rw [show (step st (Op.transferOp s' r' a')).2 = (transfer st s' r' a').2 from rfl,
          hm] at he
        cases he
    | bondOp s' f' q' =>
      rcases bond_atomic st s' f' q' with h | ⟨m, hm⟩
      · exact h
      · rw [show (step st (Op.bondOp s' f' q')).2 = (bond st s' f' q').2 from rfl,
          hm] at he
        cases he
    | unbondOp s' a' q' => exact absurd rfl (hne s' a' q')
    | claimOp s' ca' b' =>
      rcases claim_atomic st s' ca' b' with h | ⟨m, hm⟩
      · exact h
      · rw [show (step st (Op.claimOp s' ca' b')).2 = (claim st s' ca' b').2 from rfl,
          hm] at he
        cases he
    | reinvestOp ca' =>
      simp [step, reinvest] at he
    | bondAllOp c' ca' b' =>
      rcases bond_all_atomic st c' ca' b' with h | ⟨m, hm⟩
      · exact h
      · rw [show (step st (Op.bondAllOp c' ca' b')).2 = (bond_all_tokens st c' ca' b').2 from rfl,
          hm] at he
        cases he
  · intro h
    simp [step, unbond, if_pos h]

/-- Witness for C4: a transfer from an empty balance errors without any
state change, and a 10-token unbond on a min_withdrawal-50 store fails
with BelowMinimumWithdrawal. -/
theorem error_atomicity_witness :
    (step stTen (Op.transferOp 2 1 5)).1 = stTen
    ∧ step stTen (Op.unbondOp 1 10 1000) = (stTen, HResult.err Err.belowMinWithdrawal) :=
  ⟨(error_atomicity stTen (Op.transferOp 2 1 5) 1 10 1000).1
      (fun s' a' q' h => Op.noConfusion h) Err.insufficientBalance (by decide),
   (error_atomicity stTen (Op.transferOp 2 1 5) 1 10 1000).2 (by decide)⟩

/-- Counterexample to C4 as stated: when the stored bonded amount (1000)
disagrees with the queried one (900), unbond returns the
InconsistentBonded error only after debiting the sender and crediting
the owner's tax cut, so the store it leaves behind differs from the
pre-call store. -/
theorem unbond_error_after_write :
    (unbond stTen 1 600 900).2 = HResult.err Err.inconsistentBonded
    ∧ ¬ ((unbond stTen 1 600 900).1 = stTen) := by
  exact ⟨rfl, by decide⟩

/-! ### C7: the ledger total always equals Supply.issued -/

/-- C7.  If the sum of all derivative-token ledger balances equals
Supply.issued, then after every successful operation (transfer, bond,
unbond, claim, reinvest, _bond_all_tokens) the sum of the post-state
ledger balances equals the post-state Supply.issued. -/
theorem sum_balances_eq_issued_preserved (st : ContractState) (op : Op)
    (msgs : List Msg)
    (hinv : sumBal st.balances = st.supply.issued)
    (hok : (step st op).2 = HResult.ok msgs) :
    sumBal (step st op).1.balances = (step st op).1.supply.issued := by
  cases op with
  | transferOp s r a =>
    simp only [step] at hok ⊢
    by_cases hc : a ≤ getKV st.balances s 0
    · have e1 := sumBal_setKV st.balances s (getKV st.balances s 0 - a)
      have e2 := sumBal_setKV (setKV st.balances s (getKV st.balances s 0 - a)) r
        (getKV (setKV st.balances s (getKV st.balances s 0 - a)) r 0 + a)
      have l1 := getKV_le_sumBal st.balances s
      simp only [transfer, if_pos hc]
      omega
    · simp [transfer, if_neg hc] at hok
  | bondOp s f q =>
    simp only [step] at hok ⊢
    cases hp : findPayment st.invest.bond_denom f with
    | none => simp [bond, hp] at hok
    | some p =>
      by_cases hb : st.supply.bonded = q
      · have e1 := sumBal_setKV st.balances s (getKV st.balances s 0
          + (if st.supply.issued = 0 ∨ q = 0 then mulDec p DEC
             else p * st.supply.issued / q))
        simp only [bond, hp, if_pos hb]
        omega
      · simp [bond, hp, if_neg hb] at hok
  | unbondOp s a bq =>
    simp only [step] at hok ⊢
    by_cases h1 : a < st.invest.min_withdrawal
    · simp [unbond, if_pos h1] at hok
    by_cases h2 : getKV st.balances s 0 < a
    · simp [unbond, if_neg h1, if_pos h2] at hok
    by_cases h4 : mulDec a st.invest.exit_tax ≤ a
    case neg => simp [unbond, if_neg h1, if_neg h2, if_neg h4] at hok
    by_cases h5 : st.supply.bonded = bq
    case neg => simp [unbond, if_neg h1, if_neg h2, if_pos h4, if_neg h5] at hok
    by_cases h6 : st.supply.issued = 0
    · simp [unbond, if_neg h1, if_neg h2, if_pos h4, if_pos h5, if_pos h6] at hok
    by_cases h7 : bq < (a - mulDec a st.invest.exit_tax) * bq / st.supply.issued
    · simp [unbond, if_neg h1, if_neg h2, if_pos h4, if_pos h5, if_neg h6,
        if_pos h7] at hok
    by_cases h8 : st.supply.issued < a - mulDec a st.invest.exit_tax
    · simp [unbond, if_neg h1, if_neg h2, if_pos h4, if_pos h5, if_neg h6,
        if_neg h7, if_pos h8] at hok
    have e1 := sumBal_setKV st.balances s (getKV st.balances s 0 - a)
    have l1 := getKV_le_sumBal st.balances s
    by_cases hpos : 0 < mulDec a st.invest.exit_tax
    · have e2 := sumBal_setKV (setKV st.balances s (getKV st.balances s 0 - a))
        st.invest.owner
        (getKV (setKV st.balances s (getKV st.balances s 0 - a)) st.invest.owner 0
          + mulDec a st.invest.exit_tax)
      simp only [unbond, if_neg h1, if_neg h2, if_pos hpos, if_pos h4, if_pos h5,
        if_neg h6, if_neg h7, if_neg h8]
      omega
    · simp only [unbond, if_neg h1, if_neg h2, if_neg hpos, if_pos h4, if_pos h5,
        if_neg h6, if_neg h7, if_neg h8]
      omega
  | claimOp s ca b =>
    have hc := claim_components st s ca b
    simp only [step]
    rw [hc.1, hc.2]
    exact hinv
  | reinvestOp ca =>
    simpa [step, reinvest] using hinv
  | bondAllOp c ca b =>
    have hc := bond_all_components st c ca b
    simp only [step]
    rw [hc.1, hc.2]
    exact hinv

/-- Witness for C7: a concrete 4-token transfer on a store whose ledger
total (1000) equals its issued supply. -/
theorem sum_balances_eq_issued_preserved_witness :
    sumBal (step stTen (Op.transferOp 1 2 4)).1.balances
      = (step stTen (Op.transferOp 1 2 4)).1.supply.issued :=
  sum_balances_eq_issued_preserved stTen (Op.transferOp 1 2 4) [] (by decide) (by decide)

end Sophon
